import Mathlib

/-!
Shallow embedding of the shop/inventory business-logic layer
(`src/shop/api.py`) of the foobar-api repository, with proofs about its
operations.  Django models, enums and exceptions (`models.py`,
`enums.py`, `exceptions.py`) are not part of the sources; where their
behaviour decides a property it is modelled from the specification and
marked as such in the doc comment.  Timestamps are integer seconds;
calendar days (`TruncDay`, `date.toordinal`) are the floor of the
timestamp divided by 86400, and calendar dates are identified with their
ordinals.  Monetary amounts are integers in minor currency units except
where the code performs true division, which is modelled on `ℚ`.  The
scikit-learn SVR regression inside `predict_quantity` is an external
numeric component: it is abstracted as an oracle `fit` returning the
fitted linear coefficient, and everything around it is embedded from the
source.
-/

namespace Shop

/-- Modelled from the spec: transaction lifecycle statuses
(`enums.TrxStatus`, not in src/): PENDING is initial, FINALIZED and
CANCELED are terminal, and only FINALIZED transactions count toward a
product's quantity. -/
inductive TrxStatus where
  | pending
  | finalized
  | canceled
deriving DecidableEq

/-- Modelled from the spec: transaction types (`enums.TrxType`, not in
src/).  The spec names INVENTORY (restocks) and CORRECTION and leaves
room for further types ("INVENTORY, CORRECTION, …"), represented here by
`purchase`. -/
inductive TrxType where
  | inventory
  | correction
  | purchase
deriving DecidableEq

/-- Modelled from the spec: the error taxonomy.  `exceptions.APIException`
(not in src/) is the ConflictError of the spec; `notFound` is Django's
DoesNotExist and `multipleObjects` Django's MultipleObjectsReturned on a
`get` matching several rows. -/
inductive ApiErr where
  | conflict
  | notFound
  | multipleObjects
deriving DecidableEq

/-- Failure outcomes of `order_from_supplier`: `orderingError sku` is the
`APIException('Could not order ...')` naming a SKU, and `nameError` is the
unbound-local-variable failure of evaluating `product.sku` when the `for`
loop never ran (api.py line 394 with an empty candidate list). -/
inductive OrderErr where
  | orderingError (sku : Nat)
  | nameError
deriving DecidableEq

/-- Product row (`models.Product`).  The cached quantity is not stored
here: it is the derived `productQty` below.  The `category` field is the
FK id the code orders by. -/
structure Product where
  id : Nat
  code : String
  name : String
  category : Nat
deriving DecidableEq

/-- Product transaction row together with its current status
(`models.ProductTransaction` / `ProductTransactionStatus`).  `ts` is
`date_created` as an integer timestamp; `refItem` is the polymorphic
reference, modelled as the id of the referenced stocktake/delivery item. -/
structure Trx where
  productId : Nat
  trxType : TrxType
  qty : Int
  ts : Int
  status : TrxStatus
  refItem : Option Nat
deriving DecidableEq

/-- Stocktake item row (`models.StocktakeItem`): `qty` is the counted
quantity. -/
structure Item where
  id : Nat
  productId : Nat
  qty : Int
deriving DecidableEq

/-- Stocktake chunk row (`models.StocktakeChunk`). -/
structure Chunk where
  id : Nat
  stocktakeId : Nat
  locked : Bool
  owner : Option Nat
  items : List Item
deriving DecidableEq

/-- Stocktake row (`models.Stocktake`). -/
structure Stocktake where
  id : Nat
  locked : Bool
deriving DecidableEq

/-- Supplier product row (`models.SupplierProduct`).  `units` is the
cached unit count from the supplier; `qty` is the batch size and
`unitPrice` the per-unit price used by `order_from_supplier`; prices are
integers in minor currency units.  The fields' defaults and derivations
live in models.py (not in src/), so `qty` and `unitPrice` are plain
fields here and rows created by the cache set them to 0. -/
structure SupplierProduct where
  id : Nat
  supplierId : Nat
  productId : Option Nat
  sku : Nat
  name : String
  price : Int
  units : Nat
  qty : Nat
  unitPrice : Int
deriving DecidableEq

/-- Modelled from the spec: the unit quantity multiplier of a supplier
product (`qty_multiplier`, models.py not in src/) is its cached unit
count. -/
def SupplierProduct.qtyMult (sp : SupplierProduct) : Nat := sp.units

/-- Product data returned by a supplier capability's `retrieve_product`. -/
structure ProductData where
  price : Int
  name : String
  units : Nat
deriving DecidableEq

/-- Parsed line item of a delivery report. -/
structure LineItem where
  sku : Nat
  qty : Int
  price : ℚ
deriving DecidableEq

/-- Delivery item row created by `populate_delivery`: quantity and price
normalized to base units. -/
structure DeliveryItem where
  supplierProductId : Nat
  qty : Int
  price : ℚ
deriving DecidableEq

/-- Database state: the tables the embedded operations touch, plus an
autoincrement counter for fresh primary keys. -/
structure State where
  nextId : Nat
  products : List Product
  ledger : List Trx
  stocktakes : List Stocktake
  chunks : List Chunk
  supplierProducts : List SupplierProduct
deriving DecidableEq

/-- Ceiling division on naturals: `math.ceil(n / k)` for integral inputs. -/
def ceilDiv (n k : Nat) : Nat := (n + k - 1) / k

/-- Running sums, as `itertools.accumulate`. -/
def accumulate (acc : Int) : List Int → List Int
  | [] => []
  | x :: xs => (acc + x) :: accumulate (acc + x) xs

/-- Helper for `chunkList`: structural recursion on a fuel argument (an
upper bound on the list's length), so that the kernel can evaluate it. -/
def chunkListF (k : Nat) : Nat → List α → List (List α)
  | _, [] => []
  | 0, _ :: _ => []
  | fuel + 1, x :: xs => (x :: xs.take (k - 1)) :: chunkListF k fuel (xs.drop (k - 1))

/-- Successive slices of size `k`, as `lst[i:i+k] for i in range(0, len(lst), k)`
(meaningful for `0 < k`, as in the source where `k = 0` raises ValueError). -/
def chunkList (k : Nat) (l : List α) : List (List α) := chunkListF k l.length l

/-- Truncation toward zero of `-initialQty / slope`, as numpy's
`astype(int)` applied to the quotient (api.py line 349).  With
`slope = slope.num / slope.den` in lowest terms and `slope.den` positive,
the quotient equals `(-initialQty * slope.den) / slope.num` exactly, and
`Int.tdiv` truncates the integer quotient toward zero. -/
def slopeDays (initialQty : Int) (slope : ℚ) : Int :=
  Int.tdiv (-initialQty * (slope.den : Int)) slope.num

/-- Modelled from the spec: a product's current (cached) quantity equals
the sum of its finalized transaction deltas (models.py, which maintains
`Product.qty`, is not in src/; the spec states the invariant "quantity
must equal the sum of finalized ledger transaction quantities" and "only
finalized transactions count toward quantity"). -/
def productQty (s : State) (productId : Nat) : Int :=
  ((s.ledger.filter fun t =>
      decide (t.productId = productId) && decide (t.status = TrxStatus.finalized)).map
    (fun t => t.qty)).sum

/-- Embeds `create_product` (api.py lines 18-26).  The category FK takes
its model default (models.py not in src/), modelled as category 0. -/
def create_product (code name : String) (s : State) : State × Product :=
  let p : Product := { id := s.nextId, code := code, name := name, category := 0 }
  ({ s with products := s.products ++ [p], nextId := s.nextId + 1 }, p)

/-- Embeds `create_product_transaction` (api.py lines 59-76): appends a
transaction whose initial state row is explicitly `TrxStatus.PENDING`
(line 72), carrying the polymorphic reference (modelled as the referenced
item's id) and `date_created = now`. -/
def create_product_transaction (now : Int) (s : State) (productId : Nat)
    (trxType : TrxType) (qty : Int) (refItem : Option Nat) : State × Trx :=
  let t : Trx :=
    { productId := productId, trxType := trxType, qty := qty, ts := now,
      status := TrxStatus.pending, refItem := refItem }
  ({ s with ledger := s.ledger ++ [t] }, t)

/-- Body of `initiate_stocktaking`'s chunk-creating loop (api.py lines
195-199): create one chunk of the stocktake with one item per product of
the slice.  New rows take fresh autoincrement ids; created chunks and
items start unlocked, unowned and with counted quantity 0 (model
defaults, models.py not in src/). -/
def initiateChunkStep (stId : Nat) (acc : State) (ps : List Product) : State :=
  let cid := acc.nextId
  { acc with
      chunks := acc.chunks ++
        [{ id := cid, stocktakeId := stId, locked := false, owner := none,
           items := ps.enum.map fun jp =>
             { id := cid + 1 + jp.1, productId := jp.2.id, qty := 0 } }],
      nextId := cid + 1 + ps.length }

/-- Embeds `initiate_stocktaking` (api.py lines 183-200): conflict if any
unlocked stocktake exists; otherwise create a stocktake, sort all
products by category (`order_by('category')`, modelled as a stable sort
on the category key) and create one chunk per `chunk_size`-slice with one
item per product. -/
def initiate_stocktaking (chunkSize : Nat) (s : State) : Except ApiErr (State × Nat) :=
  if (s.stocktakes.filter fun st => decide (st.locked = false)).length ≠ 0 then
    Except.error ApiErr.conflict
  else
    let stId := s.nextId
    let s0 : State :=
      { s with stocktakes := s.stocktakes ++ [{ id := stId, locked := false }],
               nextId := s.nextId + 1 }
    let sorted := List.insertionSort (fun p q => p.category ≤ q.category) s.products
    Except.ok ((chunkList chunkSize sorted).foldl (initiateChunkStep stId) s0, stId)

/-- Body of `finalize_stocktaking`'s inner loop (api.py lines 214-221):
create one CORRECTION transaction for a stocktake item, with quantity
`item.qty - product.qty` and the item as reference. -/
def correctionStep (now : Int) (acc : State) (it : Item) : State :=
  (create_product_transaction now acc it.productId TrxType.correction
    (it.qty - productQty acc it.productId) (some it.id)).1

/-- Body of `finalize_stocktaking`'s outer loop (api.py lines 213-221):
emit the corrections for every item of one chunk. -/
def chunkCorrections (now : Int) (acc : State) (c : Chunk) : State :=
  c.items.foldl (correctionStep now) acc

/-- Embeds `finalize_stocktaking` (api.py lines 203-224): conflict if the
stocktake is locked or any of its chunks is unlocked; otherwise, for every
item of every chunk, create a CORRECTION transaction with quantity
`item.qty - product.qty` referencing the item, then lock the stocktake. -/
def finalize_stocktaking (now : Int) (s : State) (stId : Nat) : Except ApiErr State :=
  match s.stocktakes.find? (fun st => decide (st.id = stId)) with
  | none => Except.error ApiErr.notFound
  | some st =>
    if st.locked then Except.error ApiErr.conflict
    else
      let chunkObjs := s.chunks.filter fun c => decide (c.stocktakeId = stId)
      if (chunkObjs.all fun c => c.locked) = false then Except.error ApiErr.conflict
      else
        let s1 := chunkObjs.foldl (chunkCorrections now) s
        Except.ok { s1 with
          stocktakes := s1.stocktakes.map fun t =>
            if t.id = stId then { t with locked := true } else t }

/-- Embeds `finalize_stocktake_chunk` (api.py lines 227-234): conflict if
the chunk is already locked; otherwise lock it and clear its owner. -/
def finalize_stocktake_chunk (chunkId : Nat) (s : State) : Except ApiErr State :=
  match s.chunks.find? (fun c => decide (c.id = chunkId)) with
  | none => Except.error ApiErr.notFound
  | some c =>
    if c.locked then Except.error ApiErr.conflict
    else
      Except.ok { s with
        chunks := s.chunks.map fun x =>
          if x.id = chunkId then { x with locked := true, owner := none } else x }

/-- Embeds `assign_free_stocktake_chunk` (api.py lines 237-261): return
the chunk of this stocktake already owned by the user if there is exactly
one (`get` raises MultipleObjectsReturned on several and DoesNotExist,
which the code catches, on none); otherwise claim the first unlocked,
unowned chunk of the stocktake, or return `none` if there is none. -/
def assign_free_stocktake_chunk (userId stocktakeId : Nat) (s : State) :
    Except ApiErr (Option Chunk × State) :=
  match s.chunks.filter (fun c =>
      decide (c.stocktakeId = stocktakeId) && decide (c.owner = some userId)) with
  | [c] => Except.ok (some c, s)
  | [] =>
    match s.chunks.filter (fun c =>
        decide (c.stocktakeId = stocktakeId) && decide (c.locked = false) &&
        decide (c.owner = none)) with
    | [] => Except.ok (none, s)
    | c :: _ =>
      let c' := { c with owner := some userId }
      Except.ok (some c',
        { s with chunks := s.chunks.map fun x => if x.id = c.id then c' else x })
  | _ :: _ :: _ => Except.error ApiErr.multipleObjects

/-- Seconds per day, relating timestamps to calendar days. -/
def spd : Int := 86400

/-- Calendar day (ordinal) of a timestamp, as `TruncDay` followed by
`date.toordinal`. -/
def dayOf (ts : Int) : Int := Int.fdiv ts spd

/-- Finalized transactions of the whole ledger, as the unfiltered
`models.ProductTransaction.objects.finalized()` queryset of api.py line
273 (the `finalized()` manager method, models.py not in src/, keeps
transactions whose current status is FINALIZED, per the spec). -/
def finalizedLedger (s : State) : List Trx :=
  s.ledger.filter fun t => decide (t.status = TrxStatus.finalized)

/-- The most recent restock transaction of the whole ledger:
`qs.restocks().order_by('-date_created').first()` (api.py line 274),
where `restocks()` (models.py not in src/) filters INVENTORY-type
transactions per the spec glossary.  Ties on `date_created` are broken in
favour of the later row (the database order under equal keys is
unspecified). -/
def lastRestock (s : State) : Option Trx :=
  (finalizedLedger s).foldl
    (fun acc t =>
      if t.trxType = TrxType.inventory then
        match acc with
        | none => some t
        | some a => if a.ts ≤ t.ts then some t else some a
      else acc)
    none

/-- Modelled from the claim's wording, for comparison with `lastRestock`:
the most recent finalized INVENTORY transaction of one product's own
ledger. -/
def lastRestockOf (s : State) (productId : Nat) : Option Trx :=
  ((finalizedLedger s).filter fun t => decide (t.productId = productId)).foldl
    (fun acc t =>
      if t.trxType = TrxType.inventory then
        match acc with
        | none => some t
        | some a => if a.ts ≤ t.ts then some t else some a
      else acc)
    none

/-- Cumulative finalized quantity of the whole ledger up to and including
a timestamp: the `initial_qty` aggregate of api.py lines 279-281. -/
def globalCumulativeUpTo (s : State) (ts : Int) : Int :=
  (((finalizedLedger s).filter fun t => decide (t.ts ≤ ts)).map fun t => t.qty).sum

/-- Daily aggregation of transaction quantities: the
`annotate(date=TruncDay(..)).values('date').annotate(aggregated_qty=Sum('qty'))`
grouping of api.py lines 282-287, with groups in chronological order (the
code reads `trx_objs[0]['date']` as the series start). -/
def groupByDay (l : List Trx) : List (Int × Int) :=
  let ds := List.insertionSort (fun a b => a ≤ b) ((l.map fun t => dayOf t.ts).dedup)
  ds.map fun d => (d, ((l.filter fun t => decide (dayOf t.ts = d)).map fun t => t.qty).sum)

/-- Embeds `predict_quantity` (api.py lines 264-341) up to the regression:
the degenerate-case checks and the construction of the data points fed to
the SVR.  Returns `none` on an early exit, otherwise
`(initial_qty, date_offset, points)` where `date_offset` is the ordinal
of the first data point after the restock and `points` are the
`(day offset, cumulative quantity)` pairs.  Note the queryset of line 273
is the whole ledger, not the product's transactions, and that the
`today_ordinal not in x` test of line 335 compares the raw ordinal
against day offsets, both embedded as written. -/
def prepareData (s : State) (productId : Nat) (target : Int) (today : Int) :
    Option (Int × Int × List (Int × Int)) :=
  if productQty s productId ≤ target then none
  else
    match lastRestock s with
    | none => none
    | some restock =>
      let fin := finalizedLedger s
      let initialQty := ((fin.filter fun t => decide (t.ts ≤ restock.ts)).map
        fun t => t.qty).sum
      let groups := groupByDay (fin.filter fun t => decide (restock.ts < t.ts))
      match groups with
      | [] => none
      | g0 :: _ =>
        let dateOffset := g0.1
        let xs0 := -1 :: groups.map fun g => g.1 - dateOffset
        let ys0 := initialQty :: groups.map fun g => g.2
        let xs := if today ∈ xs0 then xs0 else xs0 ++ [today - dateOffset]
        let ys := if today ∈ xs0 then ys0 else ys0 ++ [0]
        some (initialQty, dateOffset, xs.zip (accumulate 0 ys))

/-- Embeds `predict_quantity` (api.py lines 264-350).  The SVR with linear
kernel is the oracle `fit`, giving the fitted coefficient `svr.coef_` for
the prepared data points; the tail (lines 346-350) is embedded exactly: a
non-negative slope yields `None`, otherwise
`days = (-initial_qty / slope).astype(int)` (truncation toward zero of
the exact quotient, see `slopeDays`) and the result is the calendar date
of ordinal `date_offset + days`. -/
def predict_quantity (fit : List (Int × Int) → ℚ) (s : State) (productId : Nat)
    (target : Int) (today : Int) : Option Int :=
  match prepareData s productId target today with
  | none => none
  | some (initialQty, dateOffset, pts) =>
    let slope := fit pts
    if 0 ≤ slope then none
    else some (dateOffset + slopeDays initialQty slope)

/-- Modelled from the claim's wording (C3), for comparison with
`predict_quantity`: the result computed as
`last_data_offset + round(-initial_qty / slope)`, where
`last_data_offset` is the day offset of the last point of the fitted
series converted to an ordinal. -/
def predictQuantitySpecC3 (fit : List (Int × Int) → ℚ) (s : State) (productId : Nat)
    (target : Int) (today : Int) : Option Int :=
  match prepareData s productId target today with
  | none => none
  | some (initialQty, dateOffset, pts) =>
    let slope := fit pts
    if 0 ≤ slope then none
    else
      let lastDataOffset := dateOffset + ((pts.map Prod.fst).getLast?.getD 0)
      some (lastDataOffset + round (-(initialQty : ℚ) / slope))

/-- Minimum number of batches of a supplier product needed to reach `qty`:
`math.ceil(qty / sp.qty)` (api.py lines 374-375), exact on integers. -/
def minimumQty (qty : Nat) (sp : SupplierProduct) : Nat := ceilDiv qty sp.qty

/-- Total cost of covering `qty` with a supplier product:
`minimum_qty(sp) * sp.qty * sp.unit_price` (api.py lines 377-380). -/
def cost (qty : Nat) (sp : SupplierProduct) : Int :=
  (minimumQty qty sp : Int) * (sp.qty : Int) * sp.unitPrice

/-- Candidate offerings of `order_from_supplier` (api.py lines 362-365):
supplier products of the product, optionally restricted to one supplier. -/
def candidateOfferings (s : State) (productId : Nat) (supplierId : Option Nat) :
    List SupplierProduct :=
  let ps := s.supplierProducts.filter fun sp => decide (sp.productId = some productId)
  match supplierId with
  | none => ps
  | some sid => ps.filter fun sp => decide (sp.supplierId = sid)

/-- The `for ... else` loop of api.py lines 383-395 over the cost-sorted
offerings: return the first offering whose order placement succeeds; when
the loop exhausts a non-empty list, fail with the APIException naming the
last-attempted SKU; when the list was empty, evaluating `product.sku` in
the `else` block fails with an unbound-local-variable NameError. -/
def tryOrder (orderOk : Nat → Nat → Nat → Bool) (qty : Nat) :
    List SupplierProduct → Except OrderErr SupplierProduct
  | [] => Except.error OrderErr.nameError
  | [p] =>
    if orderOk p.supplierId p.sku (minimumQty qty p) then Except.ok p
    else Except.error (OrderErr.orderingError p.sku)
  | p :: q :: rest =>
    if orderOk p.supplierId p.sku (minimumQty qty p) then Except.ok p
    else tryOrder orderOk qty (q :: rest)

/-- The candidate offerings sorted by ascending `cost`
(`products = sorted(products, key=cost)`, api.py line 382; Python's
`sorted` and `List.insertionSort` are both stable). -/
def sortedOfferings (qty : Nat) (cands : List SupplierProduct) : List SupplierProduct :=
  List.insertionSort (fun a b => cost qty a ≤ cost qty b) cands

/-- Embeds `order_from_supplier` (api.py lines 360-395).  The supplier
capability `order_product` is the oracle `orderOk supplierId sku qty`
(`true` = order placed, `false` = SupplierAPIException).  Offerings are
sorted by `cost` and tried in order. -/
def order_from_supplier (orderOk : Nat → Nat → Nat → Bool) (s : State)
    (productId : Nat) (qty : Nat) (supplierId : Option Nat) :
    Except OrderErr SupplierProduct :=
  tryOrder orderOk qty (sortedOfferings qty (candidateOfferings s productId supplierId))

/-- Discriminates the `orderingError` outcome of `order_from_supplier`. -/
def isOrderingError : Except OrderErr SupplierProduct → Bool
  | Except.error (OrderErr.orderingError _) => true
  | _ => false

/-- Embeds `get_supplier_product` (api.py lines 104-138).  The supplier
capability `retrieve_product` is the oracle `api`.  Unless `refresh` is
set, a cached row for `(supplier, sku)` is returned as is; otherwise the
product is fetched from the supplier: a `none` answer is propagated as
`none` without touching the database, and a successful fetch upserts the
cache row keyed by `(supplier, sku)` (update_or_create), refreshing
price, name and units. -/
def get_supplier_product (api : Nat → Option ProductData) (supplierId sku : Nat)
    (refresh : Bool) (s : State) : Option SupplierProduct × State :=
  let cached := s.supplierProducts.find? fun sp =>
    decide (sp.supplierId = supplierId) && decide (sp.sku = sku)
  if refresh = false ∧ cached.isSome then (cached, s)
  else
    match api sku with
    | none => (none, s)
    | some pd =>
      match cached with
      | some sp =>
        let sp' := { sp with price := pd.price, name := pd.name, units := pd.units }
        (some sp',
          { s with supplierProducts := s.supplierProducts.map fun x =>
              if decide (x.supplierId = supplierId) && decide (x.sku = sku) then sp'
              else x })
      | none =>
        let sp' : SupplierProduct :=
          { id := s.nextId, supplierId := supplierId, productId := none, sku := sku,
            name := pd.name, price := pd.price, units := pd.units,
            qty := 0, unitPrice := 0 }
        (some sp',
          { s with supplierProducts := s.supplierProducts ++ [sp'],
                   nextId := s.nextId + 1 })

/-- The delivery item built from a line item and the supplier product its
SKU resolved to (api.py lines 156-161): quantity is multiplied and price
divided by the unit multiplier. -/
def deliveryItemOf (it : LineItem) (sp : SupplierProduct) : DeliveryItem :=
  { supplierProductId := sp.id,
    qty := it.qty * (sp.qtyMult : Int),
    price := it.price / (sp.qtyMult : ℚ) }

/-- Body of `populate_delivery`'s loop (api.py lines 153-161): resolve
one parsed line item's supplier product through the cache (no forced
refresh); a resolved SKU yields one delivery item with quantity and price
normalized by the unit multiplier, an unresolved SKU is skipped
silently. -/
def populateStep (api : Nat → Option ProductData) (supplierId : Nat)
    (acc : List DeliveryItem × State) (it : LineItem) : List DeliveryItem × State :=
  match get_supplier_product api supplierId it.sku false acc.2 with
  | (some sp, s') => (acc.1 ++ [deliveryItemOf it sp], s')
  | (none, s') => (acc.1, s')

/-- Embeds `populate_delivery` as the fold of `populateStep` over the
parsed line items. -/
def populate_delivery (api : Nat → Option ProductData) (supplierId : Nat)
    (items : List LineItem) (s : State) : List DeliveryItem × State :=
  items.foldl (populateStep api supplierId) ([], s)

/-- Per-item resolution outcomes of a delivery report: which supplier
product, if any, each line item's SKU resolves to, threading the cache
state exactly as `populate_delivery` does. -/
def resolveTrace (api : Nat → Option ProductData) (supplierId : Nat) :
    List LineItem → State → List (LineItem × Option SupplierProduct)
  | [], _ => []
  | it :: rest, s =>
    let r := get_supplier_product api supplierId it.sku false s
    (it, r.1) :: resolveTrace api supplierId rest r.2

/-- The operations of the core that create or mutate stocktake chunks
(plus `finalize_stocktaking` and `create_product`, which complete the
reachable-state picture): the alphabet of the transition system for the
chunk invariant. -/
inductive StockOp where
  | createProduct (code name : String)
  | initiate (chunkSize : Nat)
  | assign (userId stocktakeId : Nat)
  | finalizeChunk (chunkId : Nat)
  | finalizeStocktake (now : Int) (stocktakeId : Nat)

/-- Applies one operation to the state; a failing operation leaves the
state unchanged (each operation runs in an atomic transaction and its
exception aborts it). -/
def applyOp (s : State) : StockOp → State
  | StockOp.createProduct code name => (create_product code name s).1
  | StockOp.initiate cs =>
    match initiate_stocktaking cs s with
    | Except.ok (s', _) => s'
    | Except.error _ => s
  | StockOp.assign u st =>
    match assign_free_stocktake_chunk u st s with
    | Except.ok (_, s') => s'
    | Except.error _ => s
  | StockOp.finalizeChunk cid =>
    match finalize_stocktake_chunk cid s with
    | Except.ok s' => s'
    | Except.error _ => s
  | StockOp.finalizeStocktake now stId =>
    match finalize_stocktaking now s stId with
    | Except.ok s' => s'
    | Except.error _ => s

/-- The empty initial database. -/
def initState : State :=
  { nextId := 0, products := [], ledger := [], stocktakes := [], chunks := [],
    supplierProducts := [] }

/-- Runs a sequence of operations from the empty database. -/
def runOps (ops : List StockOp) : State := ops.foldl applyOp initState

/-- The chunk ownership invariant: a locked chunk has no owner. -/
def ChunkInv (s : State) : Prop :=
  ∀ c ∈ s.chunks, c.locked = true → c.owner = none

/-- Identity-free shape of a chunk: its stocktake, lock state, owner and
the products of its items, used to state what `initiate_stocktaking`
creates independently of autoincrement ids. -/
def chunkShape (c : Chunk) : Nat × Bool × Option Nat × List Nat :=
  (c.stocktakeId, c.locked, c.owner, c.items.map fun it => it.productId)

/-- A constant regression oracle with slope -60 (a strictly decreasing
fitted trend), used for concrete evaluations of `predict_quantity`. -/
def fitNeg : List (Int × Int) → ℚ := fun _ => ((-60 : Int) : ℚ)

/-- Concrete state for C1: product 1 has recorded quantity 3 (one
finalized INVENTORY transaction), and stocktake 7 has a single locked,
unowned chunk whose only item counted quantity 5 for product 1. -/
def sC1 : State :=
  { nextId := 10,
    products := [{ id := 1, code := "P1", name := "one", category := 0 }],
    ledger := [{ productId := 1, trxType := TrxType.inventory, qty := 3, ts := 0,
                 status := TrxStatus.finalized, refItem := none }],
    stocktakes := [{ id := 7, locked := false }],
    chunks := [{ id := 3, stocktakeId := 7, locked := true, owner := none,
                 items := [{ id := 4, productId := 1, qty := 5 }] }],
    supplierProducts := [] }

/-- Concrete state for C2: product 1 has quantity 5 from a finalized
CORRECTION and no INVENTORY transaction of its own, while product 2 has a
finalized INVENTORY restock on day 10 followed by finalized purchases on
days 11 and 13. -/
def sC2 : State :=
  { nextId := 20,
    products := [{ id := 1, code := "P1", name := "one", category := 0 },
                 { id := 2, code := "P2", name := "two", category := 0 }],
    ledger :=
      [{ productId := 1, trxType := TrxType.correction, qty := 5, ts := 0,
         status := TrxStatus.finalized, refItem := none },
       { productId := 2, trxType := TrxType.inventory, qty := 100, ts := 10 * 86400,
         status := TrxStatus.finalized, refItem := none },
       { productId := 2, trxType := TrxType.purchase, qty := -20, ts := 11 * 86400,
         status := TrxStatus.finalized, refItem := none },
       { productId := 2, trxType := TrxType.purchase, qty := -20, ts := 13 * 86400,
         status := TrxStatus.finalized, refItem := none }],
    stocktakes := [], chunks := [], supplierProducts := [] }

/-- Concrete state for C3: product 1 restocked with 100 on day 100
(finalized INVENTORY), then finalized purchases of -40 on day 101 and -30
on day 111. -/
def sC3 : State :=
  { nextId := 20,
    products := [{ id := 1, code := "P1", name := "one", category := 0 }],
    ledger :=
      [{ productId := 1, trxType := TrxType.inventory, qty := 100, ts := 100 * 86400,
         status := TrxStatus.finalized, refItem := none },
       { productId := 1, trxType := TrxType.purchase, qty := -40, ts := 101 * 86400,
         status := TrxStatus.finalized, refItem := none },
       { productId := 1, trxType := TrxType.purchase, qty := -30, ts := 111 * 86400,
         status := TrxStatus.finalized, refItem := none }],
    stocktakes := [], chunks := [], supplierProducts := [] }

/-- A supplier order-placement oracle that always fails (every call
raises SupplierAPIException). -/
def okNever : Nat → Nat → Nat → Bool := fun _ _ _ => false

/-- A supplier order-placement oracle on which only supplier 2 succeeds. -/
def okOnly2 : Nat → Nat → Nat → Bool := fun sid _ _ => decide (sid = 2)

/-- Concrete state for C4 and C5: product 1 is offered by supplier 1 in
batches of 10 at unit price 4 (cost 40 to cover 5) and by supplier 2 in
batches of 5 at unit price 9 (cost 45 to cover 5); product 9 has no
offerings. -/
def sC45 : State :=
  { nextId := 30, products := [], ledger := [], stocktakes := [], chunks := [],
    supplierProducts :=
      [{ id := 21, supplierId := 1, productId := some 1, sku := 501, name := "a",
         price := 40, units := 1, qty := 10, unitPrice := 4 },
       { id := 22, supplierId := 2, productId := some 1, sku := 502, name := "b",
         price := 45, units := 1, qty := 5, unitPrice := 9 }] }

/-- Concrete state for C7: stocktake 5 has one unlocked, unowned chunk. -/
def sC7 : State :=
  { nextId := 40, products := [], ledger := [],
    stocktakes := [{ id := 5, locked := false }],
    chunks := [{ id := 6, stocktakeId := 5, locked := false, owner := none,
                 items := [] }],
    supplierProducts := [] }

/-- Concrete supplier catalog oracle for C8 and C10: SKU 100 resolves to
a product with 3 units, any other SKU is unknown upstream. -/
def apiC8 : Nat → Option ProductData := fun sku =>
  if sku = 100 then some { price := 30, name := "crate", units := 3 } else none

/-- Concrete state for C8 and C10: the cache holds a row of supplier 1
for SKU 200 with 2 units (a SKU the supplier no longer knows). -/
def sC8 : State :=
  { nextId := 50, products := [], ledger := [], stocktakes := [], chunks := [],
    supplierProducts :=
      [{ id := 41, supplierId := 1, productId := some 3, sku := 200, name := "c",
         price := 10, units := 2, qty := 1, unitPrice := 10 }] }

/-- Concrete line items for C8: SKU 100 resolves by fetch, SKU 200 from
the cache, SKU 300 does not resolve. -/
def itemsC8 : List LineItem :=
  [{ sku := 100, qty := 4, price := 12 },
   { sku := 300, qty := 7, price := 5 },
   { sku := 200, qty := 6, price := 8 }]

/-- Concrete operation sequence for C9 reaching a state with a locked
chunk: create a product, initiate a stocktake (chunk id 2), then
finalize that chunk. -/
def opsC9 : List StockOp :=
  [StockOp.createProduct "P" "p", StockOp.initiate 1, StockOp.finalizeChunk 2]

/-- The chunk reached by `opsC9`: locked by `finalize_stocktake_chunk`. -/
def chW9 : Chunk :=
  { id := 2, stocktakeId := 1, locked := true, owner := none,
    items := [{ id := 3, productId := 0, qty := 0 }] }

/-- The chunk of `sC7` as claimed by user 9. -/
def cW7 : Chunk :=
  { id := 6, stocktakeId := 5, locked := false, owner := some 9, items := [] }

/-- The state after user 9 claims the free chunk of `sC7`. -/
def sW7 : State :=
  { nextId := 40, products := [], ledger := [],
    stocktakes := [{ id := 5, locked := false }],
    chunks := [cW7],
    supplierProducts := [] }

/-- The supplier-2 offering of `sC45` (the second-cheapest one). -/
def spW2 : SupplierProduct :=
  { id := 22, supplierId := 2, productId := some 1, sku := 502, name := "b",
    price := 45, units := 1, qty := 5, unitPrice := 9 }

/-- The cached supplier product of `sC8`. -/
def spW8 : SupplierProduct :=
  { id := 41, supplierId := 1, productId := some 3, sku := 200, name := "c",
    price := 10, units := 2, qty := 1, unitPrice := 10 }

/-- Concrete state for C6: three products in two categories and one
locked (finished) stocktake. -/
def sC6 : State :=
  { nextId := 100,
    products := [{ id := 10, code := "A", name := "a", category := 2 },
                 { id := 11, code := "B", name := "b", category := 1 },
                 { id := 12, code := "C", name := "c", category := 1 }],
    ledger := [], stocktakes := [{ id := 99, locked := true }], chunks := [],
    supplierProducts := [] }

/-- The data points `predict_quantity` prepares from `sC2` on day 14. -/
def ptsC2 : List (Int × Int) := [(-1, 105), (0, 85), (2, 65), (3, 65)]

/-- The data points `predict_quantity` prepares from `sC3` on day 112. -/
def ptsC3 : List (Int × Int) := [(-1, 100), (0, 60), (10, 30), (11, 30)]

/-- C10: if `get_supplier_product` is called with `refresh = true` and the
supplier capability returns no data for the SKU, the call returns `none`
even though a cached row for `(supplier, sku)` exists, and the state — in
particular that cached row — is left unchanged. -/
theorem get_supplier_product_refresh_miss (api : Nat → Option ProductData)
    (supplierId sku : Nat) (s : State) (sp : SupplierProduct)
    (hc : s.supplierProducts.find? (fun x =>
        decide (x.supplierId = supplierId) && decide (x.sku = sku)) = some sp)
    (hapi : api sku = none) :
    get_supplier_product api supplierId sku true s = (none, s) := by
  simp [get_supplier_product, hapi]

/-- Witness for C10 at the concrete cache `sC8` and oracle `apiC8`. -/
theorem get_supplier_product_refresh_miss_w :
    get_supplier_product apiC8 1 200 true sC8 = (none, sC8) :=
  get_supplier_product_refresh_miss apiC8 1 200 sC8
    { id := 41, supplierId := 1, productId := some 3, sku := 200, name := "c",
      price := 10, units := 2, qty := 1, unitPrice := 10 }
    (by decide) (by decide)

/-- Helper: when the loop exhausts a non-empty offering list, it fails
with the APIException naming the last-attempted SKU. -/
theorem tryOrder_all_fail (orderOk : Nat → Nat → Nat → Bool) (qty : Nat) :
    ∀ l : List SupplierProduct, l ≠ [] →
      (∀ p ∈ l, orderOk p.supplierId p.sku (minimumQty qty p) = false) →
      ∃ p, l.getLast? = some p ∧
        tryOrder orderOk qty l = Except.error (OrderErr.orderingError p.sku)
  | [], h, _ => absurd rfl h
  | [p], _, hf => by
      refine ⟨p, rfl, ?_⟩
      simp [tryOrder, hf p (by simp)]
  | p :: q :: rest, _, hf => by
      obtain ⟨p', hl, ht⟩ := tryOrder_all_fail orderOk qty (q :: rest) (by simp)
        (fun x hx => hf x (List.mem_cons_of_mem _ hx))
      refine ⟨p', ?_, ?_⟩
      · rw [List.getLast?_cons_cons]
        exact hl
      · rw [tryOrder, if_neg]
        · exact ht
        · simp [hf p (by simp)]

/-- C4 (amended): for every call of `order_from_supplier` with a
non-empty candidate set in which no offering's order placement succeeds,
the call raises an OrderingError naming the last-attempted (most
expensive) SKU.  With an empty candidate set the failure path instead
evaluates the unbound loop variable `product` and raises a NameError
(see `order_from_supplier_empty_cex`). -/
theorem order_from_supplier_exhausted (orderOk : Nat → Nat → Nat → Bool) (s : State)
    (productId qty : Nat) (supplierId : Option Nat)
    (hne : candidateOfferings s productId supplierId ≠ [])
    (hfail : ∀ sp ∈ candidateOfferings s productId supplierId,
      orderOk sp.supplierId sp.sku (minimumQty qty sp) = false) :
    ∃ p, (sortedOfferings qty (candidateOfferings s productId supplierId)).getLast? = some p ∧
      order_from_supplier orderOk s productId qty supplierId =
        Except.error (OrderErr.orderingError p.sku) := by
  have hperm := List.perm_insertionSort (fun a b => cost qty a ≤ cost qty b)
    (candidateOfferings s productId supplierId)
  apply tryOrder_all_fail
  · intro h
    apply hne
    have hlen := hperm.length_eq
    rw [sortedOfferings] at h
    rw [h] at hlen
    exact List.length_eq_zero.mp hlen.symm
  · intro x hx
    exact hfail x (hperm.mem_iff.mp hx)

/-- C4 counterexample: with an empty candidate set (product 9 has no
offerings), `order_from_supplier` fails with the unbound-variable
NameError of `product.sku` on api.py line 394, not with an
OrderingError as the claim states. -/
theorem order_from_supplier_empty_cex :
    order_from_supplier okNever sC45 9 5 none = Except.error OrderErr.nameError ∧
    isOrderingError (order_from_supplier okNever sC45 9 5 none) = false := ⟨rfl, rfl⟩

/-- Witness for C4 at `sC45` with an always-failing supplier. -/
theorem order_from_supplier_exhausted_w :
    ∃ p, (sortedOfferings 5 (candidateOfferings sC45 1 none)).getLast? = some p ∧
      order_from_supplier okNever sC45 1 5 none =
        Except.error (OrderErr.orderingError p.sku) :=
  order_from_supplier_exhausted okNever sC45 1 5 none (by decide) (by decide)

/-- Helper: the loop returns exactly the first offering, in list order,
whose placement succeeds. -/
theorem tryOrder_eq_ok_iff (orderOk : Nat → Nat → Nat → Bool) (qty : Nat) :
    ∀ (l : List SupplierProduct) (p : SupplierProduct),
      tryOrder orderOk qty l = Except.ok p ↔
        l.find? (fun sp => orderOk sp.supplierId sp.sku (minimumQty qty sp)) = some p
  | [], p => by simp [tryOrder]
  | [x], p => by
      by_cases h : orderOk x.supplierId x.sku (minimumQty qty x)
      · simp [tryOrder, h, List.find?]
      · simp [tryOrder, h, List.find?]
  | x :: y :: rest, p => by
      by_cases h : orderOk x.supplierId x.sku (minimumQty qty x)
      · simp [tryOrder, h, List.find?]
      · rw [tryOrder, if_neg (by simp [h])]
        rw [List.find?_cons_of_neg _ (by simp [h])]
        exact tryOrder_eq_ok_iff orderOk qty (y :: rest) p

/-- C5: the candidate offerings are tried in ascending order of
`cost qty` = `ceil(qty/batch) × batch × unit price`: the tried sequence
is a permutation of the candidates sorted by cost, and the call returns
an offering iff it is the first of that sequence whose order placement
does not raise SupplierAPIException (a per-offering failure falls
through to the next cheapest). -/
theorem order_from_supplier_cheapest (orderOk : Nat → Nat → Nat → Bool) (s : State)
    (productId qty : Nat) (supplierId : Option Nat)
    (hne : candidateOfferings s productId supplierId ≠ [])
    (hbatch : ∀ sp ∈ candidateOfferings s productId supplierId, 0 < sp.qty) :
    List.Perm (sortedOfferings qty (candidateOfferings s productId supplierId))
        (candidateOfferings s productId supplierId) ∧
    List.Sorted (fun a b => cost qty a ≤ cost qty b)
        (sortedOfferings qty (candidateOfferings s productId supplierId)) ∧
    ∀ p, order_from_supplier orderOk s productId qty supplierId = Except.ok p ↔
      (sortedOfferings qty (candidateOfferings s productId supplierId)).find?
        (fun sp => orderOk sp.supplierId sp.sku (minimumQty qty sp)) = some p := by
  refine ⟨List.perm_insertionSort _ _, ?_, ?_⟩
  · haveI : IsTotal SupplierProduct (fun a b => cost qty a ≤ cost qty b) :=
      ⟨fun a b => le_total _ _⟩
    haveI : IsTrans SupplierProduct (fun a b => cost qty a ≤ cost qty b) :=
      ⟨fun a b c hab hbc => le_trans hab hbc⟩
    exact List.sorted_insertionSort _ _
  · intro p
    exact tryOrder_eq_ok_iff orderOk qty _ p

/-- Witness for C5 at `sC45`: the cheapest offering (supplier 1, cost
40) fails and the call falls through to supplier 2 (cost 45). -/
theorem order_from_supplier_cheapest_w :
    order_from_supplier okOnly2 sC45 1 5 none = Except.ok
      { id := 22, supplierId := 2, productId := some 1, sku := 502, name := "b",
        price := 45, units := 1, qty := 5, unitPrice := 9 } :=
  ((order_from_supplier_cheapest okOnly2 sC45 1 5 none (by decide) (by decide)).2.2
    { id := 22, supplierId := 2, productId := some 1, sku := 502, name := "b",
      price := 45, units := 1, qty := 5, unitPrice := 9 }).mpr (by decide)

/-- Helper: in a chunk table with distinct ids, two members with the
same id are the same row. -/
theorem chunk_eq_of_id_eq {l : List Chunk} (hnd : (l.map fun c => c.id).Nodup)
    {x c0 : Chunk} (hx : x ∈ l) (hc : c0 ∈ l) (he : x.id = c0.id) : x = c0 := by
  induction l with
  | nil => cases hx
  | cons a tl ih =>
    rw [List.map_cons, List.nodup_cons] at hnd
    rcases List.mem_cons.mp hx with rfl | hx' <;> rcases List.mem_cons.mp hc with rfl | hc'
    · rfl
    · exact absurd (he ▸ List.mem_map_of_mem (fun c => c.id) hc') hnd.1
    · exact absurd (he ▸ List.mem_map_of_mem (fun c => c.id) hx') hnd.1
    · exact ih hnd.2 hx' hc'

/-- Helper: updating one row of a chunk table in which no row satisfies
`p` to a row satisfying `p` makes that row the unique `p`-match. -/
theorem filter_update_of_none (l : List Chunk) (p : Chunk → Bool) (c0 c0' : Chunk)
    (hnd : (l.map fun c => c.id).Nodup) (hmem : c0 ∈ l)
    (hall : ∀ x ∈ l, p x = false) (hp : p c0' = true) :
    (l.map fun x => if x.id = c0.id then c0' else x).filter p = [c0'] := by
  induction l with
  | nil => cases hmem
  | cons a tl ih =>
    rw [List.map_cons]
    by_cases hide : a.id = c0.id
    · rw [if_pos hide, List.filter_cons_of_pos hp]
      have htl : (tl.map fun x => if x.id = c0.id then c0' else x).filter p = [] := by
        rw [List.filter_eq_nil_iff]
        intro y hy
        rcases List.mem_map.mp hy with ⟨x, hxtl, rfl⟩
        have hxid : x.id ≠ c0.id := by
          intro hxe
          rw [List.map_cons, List.nodup_cons] at hnd
          exact hnd.1 (by rw [hide, ← hxe]; exact List.mem_map_of_mem _ hxtl)
        rw [if_neg hxid]
        simp [hall x (List.mem_cons_of_mem a hxtl)]
      rw [htl]
    · have hc0tl : c0 ∈ tl := by
        rcases List.mem_cons.mp hmem with rfl | h'
        · exact absurd rfl hide
        · exact h'
      rw [if_neg hide, List.filter_cons_of_neg (by simp [hall a (List.mem_cons_self a tl)])]
      rw [List.map_cons, List.nodup_cons] at hnd
      exact ih hnd.2 hc0tl (fun x hx => hall x (List.mem_cons_of_mem a hx))

/-- Equation: `assign_free_stocktake_chunk` returns the unique chunk of
the stocktake already owned by the user, unchanged state. -/
theorem assign_eq_owned (u st : Nat) (s : State) (c0 : Chunk)
    (hf1 : s.chunks.filter
      (fun c => decide (c.stocktakeId = st) && decide (c.owner = some u)) = [c0]) :
    assign_free_stocktake_chunk u st s = Except.ok (some c0, s) := by
  simp only [assign_free_stocktake_chunk, hf1]

/-- Equation: the owned-chunk lookup raises MultipleObjectsReturned when
several rows match. -/
theorem assign_eq_multi (u st : Nat) (s : State) (c0 c1 : Chunk) (tl : List Chunk)
    (hf1 : s.chunks.filter
      (fun c => decide (c.stocktakeId = st) && decide (c.owner = some u)) = c0 :: c1 :: tl) :
    assign_free_stocktake_chunk u st s = Except.error ApiErr.multipleObjects := by
  simp only [assign_free_stocktake_chunk, hf1]

/-- Equation: with no owned chunk and no free chunk the call returns
`none` and leaves the state unchanged. -/
theorem assign_eq_none (u st : Nat) (s : State)
    (hf1 : s.chunks.filter
      (fun c => decide (c.stocktakeId = st) && decide (c.owner = some u)) = [])
    (hf2 : s.chunks.filter
      (fun c => decide (c.stocktakeId = st) && decide (c.locked = false) &&
        decide (c.owner = none)) = []) :
    assign_free_stocktake_chunk u st s = Except.ok (none, s) := by
  simp only [assign_free_stocktake_chunk, hf1, hf2]

/-- Equation: with no owned chunk, the first unlocked unowned chunk of
the stocktake is claimed for the user. -/
theorem assign_eq_claim (u st : Nat) (s : State) (c0 : Chunk) (rest : List Chunk)
    (hf1 : s.chunks.filter
      (fun c => decide (c.stocktakeId = st) && decide (c.owner = some u)) = [])
    (hf2 : s.chunks.filter
      (fun c => decide (c.stocktakeId = st) && decide (c.locked = false) &&
        decide (c.owner = none)) = c0 :: rest) :
    assign_free_stocktake_chunk u st s = Except.ok (some { c0 with owner := some u },
      { s with chunks := s.chunks.map fun x =>
          if x.id = c0.id then { c0 with owner := some u } else x }) := by
  simp only [assign_free_stocktake_chunk, hf1, hf2]



/-- C7: `assign_free_stocktake_chunk` is idempotent per user: if a
first call returns a chunk, an immediate second call by the same user on
the same stocktake returns that same chunk and state; and if the user
owns no chunk and no unlocked, unowned chunk exists, the call returns
`none`. -/
theorem assign_free_stocktake_chunk_idem (u st : Nat) (s : State)
    (hnd : (s.chunks.map fun c => c.id).Nodup) :
    (∀ c s', assign_free_stocktake_chunk u st s = Except.ok (some c, s') →
       assign_free_stocktake_chunk u st s' = Except.ok (some c, s')) ∧
    ((s.chunks.filter (fun c => decide (c.stocktakeId = st) && decide (c.owner = some u)) = [] ∧
      s.chunks.filter (fun c => decide (c.stocktakeId = st) && decide (c.locked = false) &&
        decide (c.owner = none)) = []) →
      assign_free_stocktake_chunk u st s = Except.ok (none, s)) := by
  constructor
  · intro c s' h
    cases hf1 : s.chunks.filter
        (fun c => decide (c.stocktakeId = st) && decide (c.owner = some u)) with
    | cons c0 tl =>
      cases tl with
      | nil =>
        rw [assign_eq_owned u st s c0 hf1] at h
        simp only [Except.ok.injEq, Prod.mk.injEq, Option.some.injEq] at h
        obtain ⟨rfl, rfl⟩ := h
        exact assign_eq_owned u st s c0 hf1
      | cons c1 tl2 =>
        rw [assign_eq_multi u st s c0 c1 tl2 hf1] at h
        exact Except.noConfusion h
    | nil =>
      cases hf2 : s.chunks.filter
          (fun c => decide (c.stocktakeId = st) && decide (c.locked = false) &&
            decide (c.owner = none)) with
      | nil =>
        rw [assign_eq_none u st s hf1 hf2] at h
        simp only [Except.ok.injEq, Prod.mk.injEq] at h
        exact absurd h.1 (by simp)
      | cons c0 rest =>
        rw [assign_eq_claim u st s c0 rest hf1 hf2] at h
        simp only [Except.ok.injEq, Prod.mk.injEq, Option.some.injEq] at h
        obtain ⟨rfl, rfl⟩ := h
        have hmem0 : c0 ∈ s.chunks :=
          (List.mem_filter.mp (show c0 ∈ _ by
            rw [hf2]; exact List.mem_cons_self c0 rest)).1
        have hp2 : (decide (c0.stocktakeId = st) && decide (c0.locked = false) &&
            decide (c0.owner = none)) = true :=
          (List.mem_filter.mp (show c0 ∈ _ by
            rw [hf2]; exact List.mem_cons_self c0 rest)).2
        have hst0 : c0.stocktakeId = st := by
          simp only [Bool.and_eq_true, decide_eq_true_eq] at hp2
          exact hp2.1.1
        have hall : ∀ x ∈ s.chunks,
            (fun c => decide (c.stocktakeId = st) && decide (c.owner = some u)) x = false := by
          intro x hx
          have hnx := List.filter_eq_nil_iff.mp hf1 x hx
          cases hpx : (decide (x.stocktakeId = st) && decide (x.owner = some u)) with
          | false => exact hpx
          | true => exact absurd hpx hnx
        have hkey := filter_update_of_none s.chunks _ c0 { c0 with owner := some u }
          hnd hmem0 hall (by simp [hst0])
        exact assign_eq_owned u st _ _ hkey
  · intro hfs
    exact assign_eq_none u st s hfs.1 hfs.2

/-- Witness for C7: user 9 claimed the chunk of `sC7`; the repeated
call returns the same chunk. -/
theorem assign_free_stocktake_chunk_idem_w :
    assign_free_stocktake_chunk 9 5 sW7 = Except.ok (some cW7, sW7) :=
  (assign_free_stocktake_chunk_idem 9 5 sC7 (by decide)).1 cW7 sW7 rfl

/-- Creating a correction transaction does not touch the chunk table. -/
theorem correctionStep_chunks (now : Int) (acc : State) (it : Item) :
    (correctionStep now acc it).chunks = acc.chunks := rfl

/-- The item loop of `finalize_stocktaking` does not touch the chunk
table. -/
theorem itemsFold_chunks (now : Int) :
    ∀ (its : List Item) (acc : State),
      (its.foldl (correctionStep now) acc).chunks = acc.chunks
  | [], _ => rfl
  | it :: its, acc => by
      rw [List.foldl_cons, itemsFold_chunks now its (correctionStep now acc it)]
      rfl

/-- The chunk loop of `finalize_stocktaking` does not touch the chunk
table. -/
theorem chunksFold_chunks (now : Int) :
    ∀ (cs : List Chunk) (acc : State),
      ((cs.foldl (chunkCorrections now) acc).chunks) = acc.chunks
  | [], _ => rfl
  | c :: cs, acc => by
      rw [List.foldl_cons, chunksFold_chunks now cs (chunkCorrections now acc c)]
      exact itemsFold_chunks now c.items acc

/-- A successful `finalize_stocktaking` leaves the chunk table
unchanged. -/
theorem finalize_stocktaking_chunks (now : Int) (s : State) (stId : Nat) (s' : State)
    (h : finalize_stocktaking now s stId = Except.ok s') : s'.chunks = s.chunks := by
  unfold finalize_stocktaking at h
  cases hfind : s.stocktakes.find? (fun st => decide (st.id = stId)) with
  | none => rw [hfind] at h; exact Except.noConfusion h
  | some st =>
    rw [hfind] at h
    simp only at h
    by_cases hl : st.locked
    · rw [if_pos hl] at h; exact Except.noConfusion h
    · rw [if_neg hl] at h
      by_cases hall : ((s.chunks.filter fun c => decide (c.stocktakeId = stId)).all
          fun c => c.locked) = false
      · rw [if_pos hall] at h; exact Except.noConfusion h
      · rw [if_neg hall] at h
        injection h with h1
        subst h1
        exact chunksFold_chunks now _ s

/-- Every chunk present after the chunk-creating loop either existed
before or was created unlocked. -/
theorem initiateFold_mem (stId : Nat) :
    ∀ (Ls : List (List Product)) (acc : State) (c : Chunk),
      c ∈ (Ls.foldl (initiateChunkStep stId) acc).chunks → c ∈ acc.chunks ∨ c.locked = false
  | [], _, _, hc => Or.inl hc
  | ps :: Ls, acc, c, hc => by
      rw [List.foldl_cons] at hc
      rcases initiateFold_mem stId Ls _ c hc with h | h
      · simp only [initiateChunkStep, List.mem_append, List.mem_singleton] at h
        rcases h with h' | h'
        · exact Or.inl h'
        · subst h'
          exact Or.inr rfl
      · exact Or.inr h

/-- Every chunk present after a successful `initiate_stocktaking`
either existed before or is unlocked. -/
theorem initiate_chunks_mem (cs : Nat) (s s' : State) (stid : Nat)
    (h : initiate_stocktaking cs s = Except.ok (s', stid)) :
    ∀ c ∈ s'.chunks, c ∈ s.chunks ∨ c.locked = false := by
  unfold initiate_stocktaking at h
  by_cases hc : (s.stocktakes.filter fun st => decide (st.locked = false)).length ≠ 0
  · rw [if_pos hc] at h; exact Except.noConfusion h
  · rw [if_neg hc] at h
    simp only at h
    injection h with h1
    injection h1 with h2 h3
    subst h2
    intro c hcmem
    rcases initiateFold_mem s.nextId _ _ c hcmem with h | h
    · exact Or.inl h
    · exact Or.inr h

/-- `assign_free_stocktake_chunk` preserves the locked-implies-unowned
invariant: it only sets an owner on an unlocked chunk. -/
theorem assign_chunkInv (u st : Nat) (s : State) (r : Option Chunk × State)
    (h : assign_free_stocktake_chunk u st s = Except.ok r) (hinv : ChunkInv s) :
    ChunkInv r.2 := by
  cases hf1 : s.chunks.filter
      (fun c => decide (c.stocktakeId = st) && decide (c.owner = some u)) with
  | cons c0 tl =>
    cases tl with
    | nil =>
      rw [assign_eq_owned u st s c0 hf1] at h
      injection h with h1
      rw [← h1]
      exact hinv
    | cons c1 tl2 =>
      rw [assign_eq_multi u st s c0 c1 tl2 hf1] at h
      exact Except.noConfusion h
  | nil =>
    cases hf2 : s.chunks.filter
        (fun c => decide (c.stocktakeId = st) && decide (c.locked = false) &&
          decide (c.owner = none)) with
    | nil =>
      rw [assign_eq_none u st s hf1 hf2] at h
      injection h with h1
      rw [← h1]
      exact hinv
    | cons c0 rest =>
      rw [assign_eq_claim u st s c0 rest hf1 hf2] at h
      injection h with h1
      rw [← h1]
      have hp2 : (decide (c0.stocktakeId = st) && decide (c0.locked = false) &&
          decide (c0.owner = none)) = true :=
        (List.mem_filter.mp (show c0 ∈ _ by
          rw [hf2]; exact List.mem_cons_self c0 rest)).2
      have hlk0 : c0.locked = false := by
        simp only [Bool.and_eq_true, decide_eq_true_eq] at hp2
        exact hp2.1.2
      intro c hc hlk
      rcases List.mem_map.mp hc with ⟨x, hxs, rfl⟩
      by_cases hxid : x.id = c0.id
      · rw [if_pos hxid] at hlk
        exact absurd hlk (by simp [hlk0])
      · rw [if_neg hxid] at hlk ⊢
        exact hinv x hxs hlk

/-- `finalize_stocktake_chunk` preserves the locked-implies-unowned
invariant: locking a chunk clears its owner. -/
theorem finalize_chunk_chunkInv (cid : Nat) (s s' : State)
    (h : finalize_stocktake_chunk cid s = Except.ok s') (hinv : ChunkInv s) :
    ChunkInv s' := by
  unfold finalize_stocktake_chunk at h
  cases hfind : s.chunks.find? (fun c => decide (c.id = cid)) with
  | none => rw [hfind] at h; exact Except.noConfusion h
  | some c0 =>
    rw [hfind] at h
    simp only at h
    by_cases hl : c0.locked
    · rw [if_pos hl] at h; exact Except.noConfusion h
    · rw [if_neg hl] at h
      injection h with h1
      subst h1
      intro c hc hlk
      rcases List.mem_map.mp hc with ⟨x, hxs, rfl⟩
      by_cases hxid : x.id = cid
      · rw [if_pos hxid]
      · rw [if_neg hxid] at hlk ⊢
        exact hinv x hxs hlk

/-- Every operation preserves the locked-implies-unowned chunk
invariant. -/
theorem chunkInv_applyOp (s : State) (op : StockOp) (h : ChunkInv s) :
    ChunkInv (applyOp s op) := by
  cases op with
  | createProduct code name => exact h
  | initiate cs =>
    simp only [applyOp]
    cases hres : initiate_stocktaking cs s with
    | error e => exact h
    | ok p =>
      intro c hc hlk
      rcases initiate_chunks_mem cs s p.1 p.2 (by rw [hres]) c hc with h' | h'
      · exact h c h' hlk
      · exact absurd hlk (by simp [h'])
  | assign u st =>
    simp only [applyOp]
    cases hres : assign_free_stocktake_chunk u st s with
    | error e => exact h
    | ok r => exact assign_chunkInv u st s r hres h
  | finalizeChunk cid =>
    simp only [applyOp]
    cases hres : finalize_stocktake_chunk cid s with
    | error e => exact h
    | ok s' => exact finalize_chunk_chunkInv cid s s' hres h
  | finalizeStocktake now stId =>
    simp only [applyOp]
    cases hres : finalize_stocktaking now s stId with
    | error e => exact h
    | ok s' =>
      intro c hc hlk
      rw [finalize_stocktaking_chunks now s stId s' hres] at hc
      exact h c hc hlk

/-- C9: in every state reachable from the empty database by the core's
operations, a locked stocktake chunk has no owner: chunks are created
unlocked and unowned, assignment sets an owner only on unlocked chunks,
and locking a chunk clears its owner. -/
theorem stocktake_chunk_inv (ops : List StockOp) : ChunkInv (runOps ops) := by
  have hgen : ∀ (l : List StockOp) (s : State), ChunkInv s → ChunkInv (l.foldl applyOp s) := by
    intro l
    induction l with
    | nil => intro s h; exact h
    | cons op l ih => intro s h; exact ih _ (chunkInv_applyOp s op h)
  exact hgen ops initState (by intro c hc _; cases hc)

/-- Witness for C9: the locked chunk reached by `opsC9` has no owner. -/
theorem stocktake_chunk_inv_w : chW9.owner = none :=
  stocktake_chunk_inv opsC9 chW9 (by decide) (by decide)

/-- The fuel argument of `chunkListF` is irrelevant once it bounds the
list's length. -/
theorem chunkListF_fuel (k : Nat) (f₁ f₂ : Nat) (l : List α) (h₁ : l.length ≤ f₁)
    (h₂ : l.length ≤ f₂) : chunkListF k f₁ l = chunkListF k f₂ l := by
  induction f₁ generalizing f₂ l with
  | zero =>
    cases l with
    | nil => cases f₂ <;> rfl
    | cons x xs => simp at h₁
  | succ f ih =>
    cases l with
    | nil => cases f₂ <;> rfl
    | cons x xs =>
      cases f₂ with
      | zero => simp at h₂
      | succ g =>
        simp only [chunkListF]
        congr 1
        apply ih
        · rw [List.length_drop]
          simp only [List.length_cons] at h₁
          omega
        · rw [List.length_drop]
          simp only [List.length_cons] at h₂
          omega

/-- Chunking the empty list gives no chunks. -/
theorem chunkList_nil (k : Nat) : chunkList k ([] : List α) = [] := rfl

/-- Unfolding equation of `chunkList` on a non-empty list. -/
theorem chunkList_cons (k : Nat) (x : α) (xs : List α) :
    chunkList k (x :: xs) = (x :: xs.take (k - 1)) :: chunkList k (xs.drop (k - 1)) := by
  unfold chunkList
  simp only [List.length_cons, chunkListF]
  congr 1
  apply chunkListF_fuel
  · rw [List.length_drop]
    omega
  · exact le_rfl

/-- The chunks of a list concatenate back to the list: chunking is a
partition. -/
theorem chunkList_flatten (k : Nat) : ∀ l : List α, (chunkList k l).flatten = l
  | [] => rfl
  | x :: xs => by
      rw [chunkList_cons, List.flatten_cons, chunkList_flatten k (xs.drop (k - 1))]
      rw [List.cons_append, List.take_append_drop]
termination_by l => l.length
decreasing_by
  rw [List.length_drop]
  simp only [List.length_cons]
  omega

/-- Step equation for ceiling division. -/
theorem ceilDiv_succ (k n : Nat) (hk : 0 < k) :
    ceilDiv (n + 1) k = 1 + ceilDiv (n - (k - 1)) k := by
  unfold ceilDiv
  rcases Nat.lt_or_ge n k with h | h
  · have h1 : n - (k - 1) = 0 := by omega
    rw [h1]
    have h2 : (0 + k - 1) / k = 0 := Nat.div_eq_of_lt (by omega)
    rw [h2]
    have h3 : n + 1 + k - 1 = n + k := by omega
    rw [h3, Nat.add_div_right n hk, Nat.div_eq_of_lt h]
  · have h1 : n - (k - 1) + k - 1 = n := by omega
    have h3 : n + 1 + k - 1 = n + k := by omega
    rw [h3, Nat.add_div_right n hk, h1]
    omega

/-- A list of length `n` falls into `ceil(n / k)` chunks of size `k`. -/
theorem chunkList_length (k : Nat) (hk : 0 < k) :
    ∀ l : List α, (chunkList k l).length = ceilDiv l.length k
  | [] => by
      rw [chunkList_nil]
      show 0 = (0 + k - 1) / k
      rw [Nat.div_eq_of_lt (by omega)]
  | x :: xs => by
      rw [chunkList_cons, List.length_cons, chunkList_length k hk (xs.drop (k - 1)),
        List.length_drop, List.length_cons, ceilDiv_succ k xs.length hk]
      omega
termination_by l => l.length
decreasing_by
  rw [List.length_drop]
  simp only [List.length_cons]
  omega

/-- Chunking yields no chunks exactly for the empty list. -/
theorem chunkList_eq_nil_iff (k : Nat) (l : List α) : chunkList k l = [] ↔ l = [] := by
  cases l with
  | nil => simp [chunkList_nil]
  | cons x xs => simp [chunkList_cons]

/-- Every chunk except possibly the last holds exactly `k` elements. -/
theorem chunkList_dropLast_length (k : Nat) (hk : 0 < k) :
    ∀ l : List α, ∀ t ∈ (chunkList k l).dropLast, t.length = k
  | [] => by
      intro t ht
      rw [chunkList_nil] at ht
      cases ht
  | x :: xs => by
      intro t ht
      rw [chunkList_cons] at ht
      cases hrec : chunkList k (xs.drop (k - 1)) with
      | nil =>
        rw [hrec] at ht
        cases ht
      | cons r rs =>
        rw [hrec, List.dropLast_cons₂] at ht
        rcases List.mem_cons.mp ht with rfl | ht'
        · have hne : xs.drop (k - 1) ≠ [] := by
            intro he
            rw [he, chunkList_nil] at hrec
            cases hrec
          have hlen : k - 1 < xs.length := by
            rcases Nat.lt_or_ge (k - 1) xs.length with h | h
            · exact h
            · exact absurd (List.drop_eq_nil_iff.mpr h) hne
          simp only [List.length_cons, List.length_take]
          omega
        · exact chunkList_dropLast_length k hk (xs.drop (k - 1)) t (by rw [hrec]; exact ht')
termination_by l => l.length
decreasing_by
  rw [List.length_drop]
  simp only [List.length_cons]
  omega

/-- The chunk-creating loop appends, per product slice, one chunk of
the new stocktake, unlocked, unowned and holding one item per product of
the slice. -/
theorem initiateFold_shapes (stId : Nat) :
    ∀ (Ls : List (List Product)) (acc : State),
      ∃ nc : List Chunk,
        (Ls.foldl (initiateChunkStep stId) acc).chunks = acc.chunks ++ nc ∧
        nc.map chunkShape =
          Ls.map (fun ps => (stId, false, none, ps.map fun p => p.id))
  | [], acc => ⟨[], by simp, by simp⟩
  | ps :: Ls, acc => by
      obtain ⟨nc, h1, h2⟩ := initiateFold_shapes stId Ls (initiateChunkStep stId acc ps)
      refine
        ⟨{ id := acc.nextId, stocktakeId := stId, locked := false, owner := none,
           items := ps.enum.map fun jp =>
             { id := acc.nextId + 1 + jp.1, productId := jp.2.id, qty := 0 } } :: nc,
         ?_, ?_⟩
      · rw [List.foldl_cons, h1]
        simp [initiateChunkStep]
      · rw [List.map_cons, h2, List.map_cons]
        congr 1
        simp only [chunkShape, List.map_map, Prod.mk.injEq, true_and]
        rw [show ((fun it : Item => it.productId) ∘ fun jp : Nat × Product =>
          ({ id := acc.nextId + 1 + jp.1, productId := jp.2.id, qty := 0 } : Item))
            = ((fun p : Product => p.id) ∘ Prod.snd) from rfl]
        rw [← List.map_map, List.enum_map_snd]

/-- C6: `initiate_stocktaking` fails with ConflictError iff an unlocked
stocktake exists; otherwise it succeeds and creates exactly
`ceil(products / chunk_size)` chunks of the new stocktake, partitioning
all products ordered by category, with every chunk except possibly the
last holding exactly `chunk_size` items and every product appearing in
exactly one chunk. -/
theorem initiate_stocktaking_spec (chunkSize : Nat) (s : State)
    (hcs : 0 < chunkSize)
    (hids : (s.products.map fun p => p.id).Nodup)
    (hwf : ∀ c ∈ s.chunks, c.stocktakeId ≠ s.nextId) :
    ((∃ st ∈ s.stocktakes, st.locked = false) ↔
      initiate_stocktaking chunkSize s = Except.error ApiErr.conflict) ∧
    ((∀ st ∈ s.stocktakes, st.locked = true) →
      ∃ s' ps,
        initiate_stocktaking chunkSize s = Except.ok (s', s.nextId) ∧
        List.Perm ps s.products ∧
        List.Sorted (fun p q : Product => p.category ≤ q.category) ps ∧
        ((s'.chunks.filter fun c => decide (c.stocktakeId = s.nextId)).map chunkShape =
          (chunkList chunkSize ps).map fun l => (s.nextId, false, none, l.map fun p => p.id)) ∧
        (s'.chunks.filter fun c => decide (c.stocktakeId = s.nextId)).length =
          ceilDiv s.products.length chunkSize ∧
        (∀ t ∈ (chunkList chunkSize ps).dropLast, t.length = chunkSize) ∧
        (∀ pid ∈ (s.products.map fun p => p.id),
          ((chunkList chunkSize ps).map fun l => l.map fun p => p.id).flatten.count pid
            = 1)) := by
  constructor
  · constructor
    · rintro ⟨st, hmem, hlk⟩
      have hne : st ∈ s.stocktakes.filter fun st => decide (st.locked = false) :=
        List.mem_filter.mpr ⟨hmem, by simp [hlk]⟩
      have hC : (s.stocktakes.filter fun st => decide (st.locked = false)).length ≠ 0 := by
        intro h0
        rw [List.length_eq_zero] at h0
        rw [h0] at hne
        cases hne
      unfold initiate_stocktaking
      rw [if_pos hC]
    · intro h
      by_contra hnex
      push_neg at hnex
      have hfilter : (s.stocktakes.filter fun st => decide (st.locked = false)) = [] :=
        List.filter_eq_nil_iff.mpr (by
          intro st hst
          have := hnex st hst
          simp only [Bool.not_eq_false] at this
          simp [this])
      have hC : ¬ ((s.stocktakes.filter fun st => decide (st.locked = false)).length ≠ 0) := by
        rw [hfilter]
        simp
      unfold initiate_stocktaking at h
      rw [if_neg hC] at h
      exact Except.noConfusion h
  · intro hall
    have hfilter : (s.stocktakes.filter fun st => decide (st.locked = false)) = [] :=
      List.filter_eq_nil_iff.mpr (by intro st hst; simp [hall st hst])
    have hC : ¬ ((s.stocktakes.filter fun st => decide (st.locked = false)).length ≠ 0) := by
      rw [hfilter]
      simp
    obtain ⟨nc, h1, h2⟩ := initiateFold_shapes s.nextId
      (chunkList chunkSize (List.insertionSort
        (fun p q : Product => p.category ≤ q.category) s.products))
      { s with stocktakes := s.stocktakes ++ [{ id := s.nextId, locked := false }],
               nextId := s.nextId + 1 }
    have hok : initiate_stocktaking chunkSize s = Except.ok
        ((chunkList chunkSize (List.insertionSort
            (fun p q : Product => p.category ≤ q.category) s.products)).foldl
          (initiateChunkStep s.nextId)
          { s with stocktakes := s.stocktakes ++ [{ id := s.nextId, locked := false }],
                   nextId := s.nextId + 1 }, s.nextId) := by
      unfold initiate_stocktaking
      rw [if_neg hC]
    have hncst : ∀ c ∈ nc, c.stocktakeId = s.nextId := by
      intro c hc
      have hmm : chunkShape c ∈ nc.map chunkShape := List.mem_map_of_mem _ hc
      rw [h2] at hmm
      rcases List.mem_map.mp hmm with ⟨l, _, he⟩
      exact (congrArg (fun t => t.1) he).symm
    have hfilter2 : (((chunkList chunkSize (List.insertionSort
        (fun p q : Product => p.category ≤ q.category) s.products)).foldl
          (initiateChunkStep s.nextId)
          { s with stocktakes := s.stocktakes ++ [{ id := s.nextId, locked := false }],
                   nextId := s.nextId + 1 }).chunks.filter
        fun c => decide (c.stocktakeId = s.nextId)) = nc := by
      rw [h1, List.filter_append]
      have hold : s.chunks.filter (fun c => decide (c.stocktakeId = s.nextId)) = [] :=
        List.filter_eq_nil_iff.mpr (by intro c hc; simp [hwf c hc])
      have hnew : nc.filter (fun c => decide (c.stocktakeId = s.nextId)) = nc :=
        List.filter_eq_self.mpr (by intro c hc; simp [hncst c hc])
      rw [hold, hnew, List.nil_append]
    refine ⟨_, List.insertionSort (fun p q : Product => p.category ≤ q.category) s.products,
      hok, List.perm_insertionSort _ _, ?_, ?_, ?_, ?_, ?_⟩
    · haveI : IsTotal Product (fun p q : Product => p.category ≤ q.category) :=
        ⟨fun a b => le_total _ _⟩
      haveI : IsTrans Product (fun p q : Product => p.category ≤ q.category) :=
        ⟨fun a b c hab hbc => le_trans hab hbc⟩
      exact List.sorted_insertionSort _ _
    · rw [hfilter2, h2]
    · rw [hfilter2]
      have hlen : nc.length = (chunkList chunkSize (List.insertionSort
          (fun p q : Product => p.category ≤ q.category) s.products)).length := by
        have := congrArg List.length h2
        simpa using this
      rw [hlen, chunkList_length chunkSize hcs,
        (List.perm_insertionSort (fun p q : Product => p.category ≤ q.category)
          s.products).length_eq]
    · exact fun t ht => chunkList_dropLast_length chunkSize hcs _ t ht
    · intro pid hpid
      rw [← List.map_flatten, chunkList_flatten]
      rw [((List.perm_insertionSort (fun p q : Product => p.category ≤ q.category)
        s.products).map (fun p => p.id)).count_eq pid]
      exact List.count_eq_one_of_mem hids hpid

/-- Witness for C6 at `sC6`: three products, chunk size 2, one locked
stocktake already present. -/
theorem initiate_stocktaking_spec_w :
    ∃ s' ps,
      initiate_stocktaking 2 sC6 = Except.ok (s', sC6.nextId) ∧
      List.Perm ps sC6.products ∧
      List.Sorted (fun p q : Product => p.category ≤ q.category) ps ∧
      ((s'.chunks.filter fun c => decide (c.stocktakeId = sC6.nextId)).map chunkShape =
        (chunkList 2 ps).map fun l => (sC6.nextId, false, none, l.map fun p => p.id)) ∧
      (s'.chunks.filter fun c => decide (c.stocktakeId = sC6.nextId)).length =
        ceilDiv sC6.products.length 2 ∧
      (∀ t ∈ (chunkList 2 ps).dropLast, t.length = 2) ∧
      (∀ pid ∈ (sC6.products.map fun p => p.id),
        ((chunkList 2 ps).map fun l => l.map fun p => p.id).flatten.count pid = 1) :=
  (initiate_stocktaking_spec 2 sC6 (by decide) (by decide) (by decide)).2
    (by decide)

/-- Helper: the populate loop, started from any accumulator, appends
one delivery item per resolving line item of the resolution trace. -/
theorem populate_go (api : Nat → Option ProductData) (sid : Nat) :
    ∀ (items : List LineItem) (s : State) (acc : List DeliveryItem),
      (items.foldl (populateStep api sid) (acc, s)).1 =
        acc ++ (resolveTrace api sid items s).foldr
          (fun p r => match p.2 with
            | some sp => deliveryItemOf p.1 sp :: r
            | none => r) []
  | [], s, acc => by simp [resolveTrace]
  | it :: rest, s, acc => by
      rw [List.foldl_cons]
      cases hres : get_supplier_product api sid it.sku false s with
      | mk r s2 =>
        cases r with
        | some sp =>
          have hstep : populateStep api sid (acc, s) it = (acc ++ [deliveryItemOf it sp], s2) := by
            dsimp only [populateStep]
            rw [hres]
          rw [hstep, populate_go api sid rest s2 (acc ++ [deliveryItemOf it sp])]
          simp only [resolveTrace]
          rw [hres]
          simp
        | none =>
          have hstep : populateStep api sid (acc, s) it = (acc, s2) := by
            dsimp only [populateStep]
            rw [hres]
          rw [hstep, populate_go api sid rest s2 acc]
          simp only [resolveTrace]
          rw [hres]
          simp

/-- Helper: the items built from a trace are exactly as many as its
resolving entries. -/
theorem foldr_items_length :
    ∀ tr : List (LineItem × Option SupplierProduct),
      (tr.foldr (fun p r => match p.2 with
        | some sp => deliveryItemOf p.1 sp :: r
        | none => r) []).length = (tr.filter fun p => p.2.isSome).length
  | [] => rfl
  | (it, r0) :: tr => by
      cases r0 with
      | some sp => simp [List.filter_cons, foldr_items_length tr]
      | none => simp [List.filter_cons, foldr_items_length tr]

/-- C8: `populate_delivery` creates exactly one delivery item per
parsed line item whose SKU resolves to a supplier product — with
quantity `item.qty × multiplier` and price `item.price ÷ multiplier`
for that product's unit multiplier — and none (with no error) for line
items whose SKU does not resolve. -/
theorem populate_delivery_items (api : Nat → Option ProductData) (supplierId : Nat)
    (items : List LineItem) (s : State)
    (hapi : ∀ k pd, api k = some pd → 0 < pd.units)
    (hunits : ∀ sp ∈ s.supplierProducts, 0 < sp.units) :
    (populate_delivery api supplierId items s).1 =
      (resolveTrace api supplierId items s).foldr
        (fun p r => match p.2 with
          | some sp =>
            { supplierProductId := sp.id, qty := p.1.qty * (sp.qtyMult : Int),
              price := p.1.price / (sp.qtyMult : ℚ) } :: r
          | none => r) [] ∧
    (populate_delivery api supplierId items s).1.length =
      ((resolveTrace api supplierId items s).filter fun p => p.2.isSome).length := by
  have h1 := populate_go api supplierId items s []
  constructor
  · simpa [populate_delivery, deliveryItemOf] using h1
  · rw [populate_delivery, h1, List.nil_append, foldr_items_length]

/-- Witness for C8 at `sC8`/`apiC8`: one SKU resolves from the cache,
one by fetching, one not at all. -/
theorem populate_delivery_items_w :
    (populate_delivery apiC8 1 itemsC8 sC8).1 =
      (resolveTrace apiC8 1 itemsC8 sC8).foldr
        (fun p r => match p.2 with
          | some sp =>
            { supplierProductId := sp.id, qty := p.1.qty * (sp.qtyMult : Int),
              price := p.1.price / (sp.qtyMult : ℚ) } :: r
          | none => r) [] ∧
    (populate_delivery apiC8 1 itemsC8 sC8).1.length =
      ((resolveTrace apiC8 1 itemsC8 sC8).filter fun p => p.2.isSome).length :=
  populate_delivery_items apiC8 1 itemsC8 sC8
    (by
      intro k pd h
      by_cases hk : k = 100
      · subst hk
        rw [show apiC8 100 = some { price := 30, name := "crate", units := 3 } from rfl] at h
        injection h with h2
        rw [← h2]
        decide
      · rw [show apiC8 k = none from by simp [apiC8, hk]] at h
        cases h)
    (by decide)

/-- Creating a transaction, which starts PENDING, does not change any
product's current (finalized) quantity. -/
theorem create_product_transaction_productQty (now : Int) (s : State) (pid0 pid : Nat)
    (ty : TrxType) (q : Int) (ref : Option Nat) :
    productQty (create_product_transaction now s pid0 ty q ref).1 pid = productQty s pid := by
  unfold productQty create_product_transaction
  rw [List.filter_append]
  simp

/-- Emitting one correction leaves all current quantities unchanged. -/
theorem correctionStep_productQty (now : Int) (acc : State) (it : Item) (pid : Nat) :
    productQty (correctionStep now acc it) pid = productQty acc pid :=
  create_product_transaction_productQty now acc it.productId pid TrxType.correction
    (it.qty - productQty acc it.productId) (some it.id)

/-- Equation: the correction emitted for a stocktake item. -/
theorem correctionStep_ledger (now : Int) (acc : State) (it : Item) :
    (correctionStep now acc it).ledger = acc.ledger ++
      [{ productId := it.productId, trxType := TrxType.correction,
         qty := it.qty - productQty acc it.productId, ts := now,
         status := TrxStatus.pending, refItem := some it.id }] := rfl

/-- The item loop of `finalize_stocktaking` does not touch the
stocktake table. -/
theorem itemsFold_stocktakes (now : Int) :
    ∀ (its : List Item) (acc : State),
      (its.foldl (correctionStep now) acc).stocktakes = acc.stocktakes
  | [], _ => rfl
  | it :: its, acc => by
      rw [List.foldl_cons, itemsFold_stocktakes now its (correctionStep now acc it)]
      rfl

/-- The chunk loop of `finalize_stocktaking` does not touch the
stocktake table. -/
theorem chunksFold_stocktakes (now : Int) :
    ∀ (cs : List Chunk) (acc : State),
      ((cs.foldl (chunkCorrections now) acc).stocktakes) = acc.stocktakes
  | [], _ => rfl
  | c :: cs, acc => by
      rw [List.foldl_cons, chunksFold_stocktakes now cs (chunkCorrections now acc c)]
      exact itemsFold_stocktakes now c.items acc

/-- The item loop preserves current quantities, only appends to the
ledger, and emits for every item a PENDING correction whose delta is
counted minus the quantity recorded at loop entry. -/
theorem itemsFold_spec (now : Int) :
    ∀ (its : List Item) (acc : State),
      (∀ pid, productQty (its.foldl (correctionStep now) acc) pid = productQty acc pid) ∧
      (∃ ext, (its.foldl (correctionStep now) acc).ledger = acc.ledger ++ ext) ∧
      (∀ it ∈ its,
        ({ productId := it.productId, trxType := TrxType.correction,
           qty := it.qty - productQty acc it.productId, ts := now,
           status := TrxStatus.pending, refItem := some it.id } : Trx)
          ∈ (its.foldl (correctionStep now) acc).ledger)
  | [], acc => ⟨fun _ => rfl, ⟨[], by simp⟩, by intro it h; cases h⟩
  | it0 :: its, acc => by
      obtain ⟨hq, ⟨ext, hext⟩, hmem⟩ := itemsFold_spec now its (correctionStep now acc it0)
      rw [List.foldl_cons]
      refine ⟨?_, ?_, ?_⟩
      · intro pid
        rw [hq pid, correctionStep_productQty]
      · refine
          ⟨{ productId := it0.productId, trxType := TrxType.correction,
             qty := it0.qty - productQty acc it0.productId, ts := now,
             status := TrxStatus.pending, refItem := some it0.id } :: ext, ?_⟩
        rw [hext, correctionStep_ledger, List.append_assoc, List.singleton_append]
      · intro it hit
        rcases List.mem_cons.mp hit with rfl | hit'
        · rw [hext]
          apply List.mem_append_left
          rw [correctionStep_ledger]
          exact List.mem_append_right _ (List.mem_singleton.mpr rfl)
        · have h := hmem it hit'
          rw [correctionStep_productQty] at h
          exact h

/-- The chunk loop preserves current quantities, only appends to the
ledger, and emits for every item of every chunk a PENDING correction
whose delta is counted minus the quantity recorded at loop entry. -/
theorem chunksFold_spec (now : Int) :
    ∀ (chs : List Chunk) (acc : State),
      (∀ pid, productQty (chs.foldl (chunkCorrections now) acc) pid = productQty acc pid) ∧
      (∃ ext, (chs.foldl (chunkCorrections now) acc).ledger = acc.ledger ++ ext) ∧
      (∀ c ∈ chs, ∀ it ∈ c.items,
        ({ productId := it.productId, trxType := TrxType.correction,
           qty := it.qty - productQty acc it.productId, ts := now,
           status := TrxStatus.pending, refItem := some it.id } : Trx)
          ∈ (chs.foldl (chunkCorrections now) acc).ledger)
  | [], acc => ⟨fun _ => rfl, ⟨[], by simp⟩, by intro c h; cases h⟩
  | c0 :: chs, acc => by
      obtain ⟨hq0, ⟨ext0, hext0⟩, hmem0⟩ := itemsFold_spec now c0.items acc
      obtain ⟨hq, ⟨ext, hext⟩, hmem⟩ := chunksFold_spec now chs (chunkCorrections now acc c0)
      rw [List.foldl_cons]
      refine ⟨?_, ?_, ?_⟩
      · intro pid
        rw [hq pid]
        exact hq0 pid
      · refine ⟨ext0 ++ ext, ?_⟩
        rw [hext]
        rw [show (chunkCorrections now acc c0).ledger = acc.ledger ++ ext0 from hext0]
        rw [List.append_assoc]
      · intro c hc it hit
        rcases List.mem_cons.mp hc with rfl | hc'
        · have h := hmem0 it hit
          rw [hext]
          exact List.mem_append_left _ h
        · have h := hmem c hc' it hit
          unfold chunkCorrections at h
          rw [hq0 it.productId] at h
          exact h

/-- C1 (amended): `finalize_stocktaking` fails with ConflictError if
the stocktake is already locked or any of its chunks is unlocked;
otherwise it succeeds, and for every item of every chunk a CORRECTION
transaction with delta = counted − recorded quantity (zero deltas
included) referencing the item exists in the ledger with initial status
PENDING — the operation does not finalize it, so every product's current
quantity (the sum of its finalized deltas) is unchanged — and the
stocktake is locked. -/
theorem finalize_stocktaking_spec (now : Int) (s : State) (stId : Nat) (st : Stocktake)
    (hfind : s.stocktakes.find? (fun t => decide (t.id = stId)) = some st) :
    (st.locked = true → finalize_stocktaking now s stId = Except.error ApiErr.conflict) ∧
    (st.locked = false →
      (∃ c ∈ s.chunks, c.stocktakeId = stId ∧ c.locked = false) →
      finalize_stocktaking now s stId = Except.error ApiErr.conflict) ∧
    (st.locked = false →
      (∀ c ∈ s.chunks, c.stocktakeId = stId → c.locked = true) →
      ∃ s', finalize_stocktaking now s stId = Except.ok s' ∧
        (∀ c ∈ s.chunks, c.stocktakeId = stId → ∀ it ∈ c.items,
          ({ productId := it.productId, trxType := TrxType.correction,
             qty := it.qty - productQty s it.productId, ts := now,
             status := TrxStatus.pending, refItem := some it.id } : Trx) ∈ s'.ledger) ∧
        (∀ pid, productQty s' pid = productQty s pid) ∧
        s'.stocktakes = s.stocktakes.map fun t =>
          if t.id = stId then { t with locked := true } else t) := by
  refine ⟨?_, ?_, ?_⟩
  · intro hl
    unfold finalize_stocktaking
    rw [hfind]
    simp [hl]
  · rintro hl ⟨c, hmem, hcst, hclk⟩
    unfold finalize_stocktaking
    rw [hfind]
    have hallf : ((s.chunks.filter fun c => decide (c.stocktakeId = stId)).all
        fun c => c.locked) = false := by
      apply List.all_eq_false.mpr
      exact ⟨c, List.mem_filter.mpr ⟨hmem, by simp [hcst]⟩, by simp [hclk]⟩
    simp only [hl]
    rw [if_neg (by simp), if_pos hallf]
  · intro hl hall
    have halltrue : ((s.chunks.filter fun c => decide (c.stocktakeId = stId)).all
        fun c => c.locked) = true := by
      rw [List.all_eq_true]
      intro c hc
      obtain ⟨hcm, hcp⟩ := List.mem_filter.mp hc
      exact hall c hcm (by simpa using hcp)
    obtain ⟨hq, ⟨ext, hext⟩, hmem⟩ := chunksFold_spec now
      (s.chunks.filter fun c => decide (c.stocktakeId = stId)) s
    refine
      ⟨{ (s.chunks.filter fun c => decide (c.stocktakeId = stId)).foldl
           (chunkCorrections now) s with
         stocktakes := ((s.chunks.filter fun c => decide (c.stocktakeId = stId)).foldl
             (chunkCorrections now) s).stocktakes.map fun t =>
           if t.id = stId then { t with locked := true } else t },
       ?_, ?_, ?_, ?_⟩
    · unfold finalize_stocktaking
      rw [hfind]
      simp only [hl]
      rw [if_neg (by simp), if_neg (by simp [halltrue])]
    · intro c hc hcst it hit
      exact hmem c (List.mem_filter.mpr ⟨hc, by simp [hcst]⟩) it hit
    · intro pid
      exact hq pid
    · show ((s.chunks.filter fun c => decide (c.stocktakeId = stId)).foldl
          (chunkCorrections now) s).stocktakes.map _ = _
      rw [chunksFold_stocktakes now _ s]

/-- Witness for C1 at `sC1`: recorded 3, counted 5, one locked chunk. -/
theorem finalize_stocktaking_spec_w :
    ∃ s', finalize_stocktaking 50 sC1 7 = Except.ok s' ∧
      (∀ c ∈ sC1.chunks, c.stocktakeId = 7 → ∀ it ∈ c.items,
        ({ productId := it.productId, trxType := TrxType.correction,
           qty := it.qty - productQty sC1 it.productId, ts := 50,
           status := TrxStatus.pending, refItem := some it.id } : Trx) ∈ s'.ledger) ∧
      (∀ pid, productQty s' pid = productQty sC1 pid) ∧
      s'.stocktakes = sC1.stocktakes.map fun t =>
        if t.id = 7 then { t with locked := true } else t :=
  (finalize_stocktaking_spec 50 sC1 7 { id := 7, locked := false } (by decide)).2.2
    rfl (by decide)

/-- C1 counterexample: at `sC1` (counted 5, recorded 3)
`finalize_stocktaking` succeeds, but the ledger afterwards holds no
finalized CORRECTION, exactly one PENDING one, and product 1's current
quantity is still 3 rather than the counted 5 — contradicting the
claim's "exists and is finalized, and quantities now match counts". -/
theorem finalize_stocktaking_cex :
    (finalize_stocktaking 50 sC1 7).toOption.map (fun s' =>
      ((s'.ledger.filter fun t => decide (t.trxType = TrxType.correction) &&
          decide (t.status = TrxStatus.finalized)).length,
       (s'.ledger.filter fun t => decide (t.trxType = TrxType.correction) &&
          decide (t.status = TrxStatus.pending)).length,
       productQty s' 1)) = some (0, 1, 3) := by decide

/-- C2 (amended): `predict_quantity` takes its restock baseline from
the whole ledger rather than the product's own: if no finalized
INVENTORY transaction exists anywhere it returns `None` (given any
fitted model), and whenever the pipeline reaches the regression data its
`initial_qty` is the cumulative finalized quantity of all products up to
the globally most recent restock. -/
theorem predict_quantity_global_ledger (fit : List (Int × Int) → ℚ) (s : State)
    (productId : Nat) (target today : Int) :
    (lastRestock s = none → predict_quantity fit s productId target today = none) ∧
    (∀ iq d0 pts, prepareData s productId target today = some (iq, d0, pts) →
      ∃ r, lastRestock s = some r ∧ iq = globalCumulativeUpTo s r.ts) := by
  constructor
  · intro h
    unfold predict_quantity prepareData
    rw [h]
    by_cases hq : productQty s productId ≤ target
    · rw [if_pos hq]
    · rw [if_neg hq]
  · intro iq d0 pts hp
    unfold prepareData at hp
    by_cases hq : productQty s productId ≤ target
    · rw [if_pos hq] at hp
      exact Option.noConfusion hp
    · rw [if_neg hq] at hp
      cases hlr : lastRestock s with
      | none =>
        rw [hlr] at hp
        exact Option.noConfusion hp
      | some r =>
        rw [hlr] at hp
        simp only [] at hp
        refine ⟨r, rfl, ?_⟩
        cases hg : groupByDay ((finalizedLedger s).filter fun t => decide (r.ts < t.ts)) with
        | nil =>
          rw [hg] at hp
          exact Option.noConfusion hp
        | cons g0 gs =>
          rw [hg] at hp
          simp only [Option.some.injEq, Prod.mk.injEq] at hp
          obtain ⟨h1, _, _⟩ := hp
          rw [← h1]
          rfl

/-- Witness for C2: an empty ledger yields `None`, and at `sC2` the
baseline 105 is the global cumulative quantity up to product 2's
restock. -/
theorem predict_quantity_global_ledger_w :
    predict_quantity fitNeg initState 1 0 0 = none ∧
    (∃ r, lastRestock sC2 = some r ∧ 105 = globalCumulativeUpTo sC2 r.ts) :=
  ⟨(predict_quantity_global_ledger fitNeg initState 1 0 0).1 (by decide),
   (predict_quantity_global_ledger fitNeg sC2 1 0 14).2 105 11 ptsC2 (by decide)⟩

/-- C2 counterexample: in `sC2` product 1 has quantity 5 > 0 and no
finalized INVENTORY transaction of its own, yet the code takes product
2's restock as its baseline, reaches the regression step, and under the
decreasing fitted trend returns a date — contradicting the claim that it
returns `None` with the baseline from the product's own ledger. -/
theorem predict_quantity_cex :
    productQty sC2 1 = 5 ∧
    lastRestockOf sC2 1 = none ∧
    (lastRestock sC2).map (fun t => t.productId) = some 2 ∧
    prepareData sC2 1 0 14 = some (105, 11, ptsC2) ∧
    predict_quantity fitNeg sC2 1 0 14 = some 12 := by decide

/-- C3 (amended): when `predict_quantity` reaches the regression step
and the fitted slope is negative, it returns the calendar date of
ordinal `date_offset + trunc(-initial_qty / slope)`, where `date_offset`
is the ordinal of the first data point after the restock and the
quotient is truncated toward zero (`astype(int)`); a non-negative slope
yields `None`. -/
theorem predict_quantity_regression_tail (fit : List (Int × Int) → ℚ) (s : State)
    (productId : Nat) (target today iq d0 : Int) (pts : List (Int × Int))
    (hp : prepareData s productId target today = some (iq, d0, pts)) :
    (fit pts < 0 → predict_quantity fit s productId target today =
      some (d0 + slopeDays iq (fit pts))) ∧
    (0 ≤ fit pts → predict_quantity fit s productId target today = none) := by
  constructor
  · intro hσ
    unfold predict_quantity
    rw [hp]
    simp only []
    rw [if_neg (not_le.mpr hσ)]
  · intro hσ
    unfold predict_quantity
    rw [hp]
    simp only []
    rw [if_pos hσ]

/-- Witness for C3 at `sC3` with fitted slope -60. -/
theorem predict_quantity_regression_tail_w :
    predict_quantity fitNeg sC3 1 0 112 = some (101 + slopeDays 100 (fitNeg ptsC3)) :=
  (predict_quantity_regression_tail fitNeg sC3 1 0 112 100 101 ptsC3 (by decide)).1
    (by decide)

/-- C3 counterexample: at `sC3` with fitted slope -60 the code returns
day 102 = `date_offset 101 + trunc(100/60)`, while the claim's formula
`last_data_offset + round(-initial_qty/slope)` gives day 114 =
`112 + round(5/3)` — the code uses the first data point's offset and
truncation, not the last point's offset and rounding. -/
theorem predict_quantity_round_cex :
    predict_quantity fitNeg sC3 1 0 112 = some 102 ∧
    predictQuantitySpecC3 fitNeg sC3 1 0 112 = some 114 ∧
    predict_quantity fitNeg sC3 1 0 112 ≠ predictQuantitySpecC3 fitNeg sC3 1 0 112 := by
  have h1 : predict_quantity fitNeg sC3 1 0 112 = some 102 := by decide
  have h2 : predictQuantitySpecC3 fitNeg sC3 1 0 112 = some 114 := by
    unfold predictQuantitySpecC3
    rw [show prepareData sC3 1 0 112 = some (100, 101, ptsC3) from by decide]
    simp only []
    rw [if_neg (show ¬ ((0 : ℚ) ≤ fitNeg ptsC3) from by decide)]
    rw [show ((ptsC3.map Prod.fst).getLast?.getD 0) = 11 from by decide]
    have hr : round (-((100 : Int) : ℚ) / fitNeg ptsC3) = 2 := by
      rw [show (-((100 : Int) : ℚ) / fitNeg ptsC3) = 5 / 3 from by
        rw [show fitNeg ptsC3 = ((-60 : Int) : ℚ) from rfl]
        norm_num]
      rw [round_eq]
      rw [show (5 : ℚ) / 3 + 1 / 2 = 13 / 6 from by norm_num]
      rw [show ((13 : ℚ) / 6) = (2 : Int) + 1 / 6 from by norm_num]
      have hfr : ⌊(1 : ℚ) / 6⌋ = 0 := by
        rw [Int.floor_eq_zero_iff]
        rw [Set.mem_Ico]
        norm_num
      rw [Int.floor_int_add, hfr]
      decide
    rw [hr]
    decide
  refine ⟨h1, h2, ?_⟩
  rw [h1, h2]
  decide

end Shop
